import Mathlib

/-!
Shallow embedding of the beadhub event-distribution and notification
subsystem (`src/beadhub/events.py`, `src/beadhub/notifications.py`,
`src/beadhub/mutation_hooks.py`, `src/beadhub/beads_sync.py`), together
with theorems settling the spec claims about it.

External collaborators (Redis, Postgres, the `aweb` message store) are
modelled as explicit state values or oracle functions passed in as
parameters; Python exceptions are modelled with `Except` / explicit
outcome constructors; wall-clock timestamps are modelled as `Int`
seconds.
-/

namespace BeadHub

/-! ### Event model (`events.py`, lines 27-54) -/

/-- Embeds `EventCategory`: the four recognized event categories. -/
inductive EventCategory where
  | reservation
  | message
  | escalation
  | bead
deriving DecidableEq

/-- Embeds the Python `EventCategory(value)` enum lookup. `none` models the
`ValueError` the enum constructor raises on an unrecognized value. -/
def EventCategory.ofString (s : String) : Option EventCategory :=
  if s = "reservation" then some .reservation
  else if s = "message" then some .message
  else if s = "escalation" then some .escalation
  else if s = "bead" then some .bead
  else none

/-- Embeds Python `s.split(".")[0]`: the substring of `s` before the first
`'.'` (the whole of `s` when it contains no dot). -/
def pySplitHead (s : String) : String :=
  ⟨s.data.takeWhile (fun c => c != '.')⟩

/-- Whether a type string contains a dot at all. -/
def hasDot (s : String) : Bool :=
  s.data.contains '.'

/-- Embeds the `Event.category` property (`events.py` lines 51-54):
`EventCategory(self.type.split(".")[0])`, evaluated when the property is
accessed. `none` models the raised `ValueError`. The `Event` dataclass
itself performs no validation at construction. -/
def categoryOfType (type_ : String) : Option EventCategory :=
  EventCategory.ofString (pySplitHead type_)

theorem takeWhile_append_stop {p : Char → Bool} (X : List Char)
    (hX : ∀ c ∈ X, p c = true) (c : Char) (hc : p c = false) (Y : List Char) :
    (X ++ c :: Y).takeWhile p = X := by
  induction X with
  | nil => simp [List.takeWhile_cons, hc]
  | cons a as ih =>
      have ha : p a = true := hX a (List.mem_cons_self a as)
      simp only [List.cons_append, List.takeWhile_cons, ha, if_true]
      have : ∀ c' ∈ as, p c' = true := fun c' hmem => hX c' (List.mem_cons_of_mem a hmem)
      simp [ih this]

theorem takeWhile_all {p : Char → Bool} (X : List Char)
    (hX : ∀ c ∈ X, p c = true) : X.takeWhile p = X := by
  induction X with
  | nil => rfl
  | cons a as ih =>
      have ha : p a = true := hX a (List.mem_cons_self a as)
      have : ∀ c' ∈ as, p c' = true := fun c' hmem => hX c' (List.mem_cons_of_mem a hmem)
      simp [List.takeWhile_cons, ha, ih this]

/-- When `X` contains no dot, the split head of `X ++ "." ++ Y` is `X`. -/
theorem pySplitHead_append (X Y : String) (hX : ∀ c ∈ X.data, c ≠ '.') :
    pySplitHead (X ++ "." ++ Y) = X := by
  have hdot : String.data "." = ['.'] := rfl
  have hdata : (X ++ "." ++ Y).data = X.data ++ '.' :: Y.data := by
    rw [String.data_append, String.data_append, List.append_assoc, hdot]
    rfl
  unfold pySplitHead
  rw [hdata, takeWhile_append_stop X.data (fun c hc => by simp [hX c hc]) '.' (by simp) Y.data]

/-- When `X` contains no dot, the split head of `X` is `X` itself. -/
theorem pySplitHead_no_dot (X : String) (hX : ∀ c ∈ X.data, c ≠ '.') :
    pySplitHead X = X := by
  unfold pySplitHead
  rw [takeWhile_all X.data (fun c hc => by simp [hX c hc])]

/-! ### Stream multiplexer: per-message framing (`events.py`, lines 311-327)

`stream_events_multi` handles each pub/sub message by decoding it,
parsing it as JSON (a failure is logged and skipped), extracting
`event_data.get("type", "")`, and emitting a `data:` frame iff the
derived category passes the optional filter. A bus message is modelled
as either malformed (raises `json.JSONDecodeError`) or well-formed with
the type string the parse yields and the raw JSON text. -/

/-- A message received from a subscribed pub/sub channel. -/
inductive BusMessage where
  | malformed (raw : String)
  | wellFormed (type_ : String) (raw : String)
deriving DecidableEq

/-- Embeds the body of the message branch of `stream_events_multi`: the
`data:` frame produced for one bus message, or `none` when the message
is skipped (malformed JSON or filtered out). `filt = none` means no
category filter was requested. -/
def frameForMessage (filt : Option (List String)) (m : BusMessage) : Option String :=
  match m with
  | .malformed _ => none
  | .wellFormed type_ raw =>
      let eventCategory := pySplitHead type_
      let pass := match filt with
        | none => true
        | some cats => cats.contains eventCategory
      if pass then some ("data: " ++ raw ++ "\n\n") else none

/-- The sequence of data frames a stream emits for a sequence of inbound
bus messages (keepalive comment frames elided). -/
def dataFrames (filt : Option (List String)) (msgs : List BusMessage) : List String :=
  msgs.filterMap (frameForMessage filt)

/-! ### Stream multiplexer: empty-workspace-list loop (`events.py`, lines 264-284)

With no channels to subscribe to, the stream emits keepalives on a fixed
cadence for at most `5 * 60` seconds and then terminates. `disc i` models
the `check_disconnected` callback's answer at iteration `i` (`fun _ =>
false` models an absent or never-firing callback). -/

/-- One keepalive comment frame. -/
def keepaliveFrame : String := ": keepalive\n\n"

/-- Embeds the `while keepalive_count < max_keepalives` loop. -/
def emptyStreamLoop (disc : Nat → Bool) (maxKeepalives count : Nat) : List String :=
  if _h : count < maxKeepalives then
    if disc count then []
    else keepaliveFrame :: emptyStreamLoop disc maxKeepalives (count + 1)
  else []
termination_by maxKeepalives - count

/-- Embeds the empty-channel branch of `stream_events_multi`:
`max_duration_seconds = 5 * 60`, `max_keepalives = max_duration_seconds
// keepalive_seconds`, counter starting at 0. -/
def emptyWorkspaceStream (disc : Nat → Bool) (keepalive_seconds : Nat) : List String :=
  emptyStreamLoop disc ((5 * 60) / keepalive_seconds) 0

theorem emptyStreamLoop_length_le (disc : Nat → Bool) (maxK : Nat) :
    ∀ fuel count, maxK - count ≤ fuel →
      (emptyStreamLoop disc maxK count).length ≤ maxK - count := by
  intro fuel
  induction fuel with
  | zero =>
      intro count h
      rw [emptyStreamLoop]
      have : ¬ count < maxK := by omega
      simp [this]
  | succ n ih =>
      intro count h
      rw [emptyStreamLoop]
      by_cases hlt : count < maxK
      · have hind := ih (count + 1) (by omega)
        cases hdisc : disc count
        · simp only [hlt, dif_pos, hdisc, Bool.false_eq_true, if_false, List.length_cons]
          omega
        · simp [hlt, hdisc]
      · simp [hlt]

theorem emptyStreamLoop_length_no_disc (maxK : Nat) :
    ∀ fuel count, maxK - count ≤ fuel →
      (emptyStreamLoop (fun _ => false) maxK count).length = maxK - count := by
  intro fuel
  induction fuel with
  | zero =>
      intro count h
      rw [emptyStreamLoop]
      have : ¬ count < maxK := by omega
      simp [this]
      omega
  | succ n ih =>
      intro count h
      rw [emptyStreamLoop]
      by_cases hlt : count < maxK
      · have hind := ih (count + 1) (by omega)
        simp only [hlt, dif_pos, Bool.false_eq_true, if_false, List.length_cons]
        omega
      · simp [hlt]
        omega

theorem emptyStreamLoop_all_keepalive (disc : Nat → Bool) (maxK : Nat) :
    ∀ fuel count, maxK - count ≤ fuel →
      ∀ f ∈ emptyStreamLoop disc maxK count, f = keepaliveFrame := by
  intro fuel
  induction fuel with
  | zero =>
      intro count h f hf
      rw [emptyStreamLoop] at hf
      have : ¬ count < maxK := by omega
      simp [this] at hf
  | succ n ih =>
      intro count h f hf
      rw [emptyStreamLoop] at hf
      by_cases hlt : count < maxK
      · cases hdisc : disc count
        · simp only [hlt, dif_pos, hdisc, Bool.false_eq_true, if_false,
            List.mem_cons] at hf
          rcases hf with rfl | hf
          · rfl
          · exact ih (count + 1) (by omega) f hf
        · simp [hlt, hdisc] at hf
      · simp [hlt] at hf

/-! ### Presence / waiting tracker (`events.py`, lines 360-566)

The Redis state a chat session sees: the waiting ZSET `chat:waiting:<sid>`
(member -> last-heartbeat score) and the deadline hash
`chat:deadline:<sid>` (member -> deadline timestamp), both modelled per
session as partial maps from workspace id. Timestamps are `Int` seconds.
Key TTLs and the defensive ZSET shape migration are not part of this
state model. -/

structure ChatState where
  waiting : String → Option Int
  deadline : String → Option Int

/-- Embeds the `zadd(waiting_key, {workspace_id: time.time()})` upsert
performed when a stream connects or refreshes its heartbeat
(`stream_chat_events`, lines 610 and 661). -/
def markWaiting (now : Int) (st : ChatState) (workspace_id : String) : ChatState :=
  { st with waiting := fun w => if w = workspace_id then some now else st.waiting w }

/-- Embeds `is_workspace_waiting` (`events.py` lines 449-487): look up the
peer's heartbeat score; no entry means not waiting; a stale entry
(`score < now - max_age_seconds`) is removed together with the peer's
deadline entry and reported as not waiting. Returns the boolean answer
and the (possibly updated) state. -/
def is_workspace_waiting (now : Int) (st : ChatState) (workspace_id : String)
    (max_age_seconds : Int) : Bool × ChatState :=
  match st.waiting workspace_id with
  | none => (false, st)
  | some score =>
      if score < now - max_age_seconds then
        (false,
          { waiting := fun w => if w = workspace_id then none else st.waiting w,
            deadline := fun w => if w = workspace_id then none else st.deadline w })
      else
        (true, st)

/-- Embeds `get_workspace_deadline` (`events.py` lines 490-522): `hget` on
the deadline hash. -/
def get_workspace_deadline (st : ChatState) (workspace_id : String) : Option Int :=
  st.deadline workspace_id

/-- Embeds `extend_workspace_deadline` (`events.py` lines 525-566):
non-positive extensions are rejected; with no stored deadline nothing is
extended and no entry is created; otherwise the stored deadline value is
increased by `extends_seconds` and the new deadline returned. -/
def extend_workspace_deadline (st : ChatState) (workspace_id : String)
    (extends_seconds : Int) : Option Int × ChatState :=
  if extends_seconds ≤ 0 then (none, st)
  else
    match st.deadline workspace_id with
    | none => (none, st)
    | some current =>
        let new_deadline := current + extends_seconds
        (some new_deadline,
          { st with deadline := fun w =>
              if w = workspace_id then some new_deadline else st.deadline w })

/-! ### Notification outbox (`notifications.py`)

The `notification_outbox` table is modelled as a list of rows; the
Postgres connection, the `workspaces` table and the external
`deliver_message` collaborator are oracle parameters. -/

/-- Embeds `MAX_RETRY_ATTEMPTS = 3` (`notifications.py` line 25). -/
def MAX_RETRY_ATTEMPTS : Nat := 3

/-- Values of the outbox `status` column. -/
inductive OutboxStatus where
  | pending
  | processing
  | completed
  | failed
deriving DecidableEq

/-- One row of the `notification_outbox` table. -/
structure OutboxEntry where
  id : Nat
  project_id : String
  event_type : String
  payload : String
  recipient_workspace_id : String
  recipient_alias : String
  status : OutboxStatus
  attempts : Nat
  last_error : Option String
  created_at : Nat
  processed_at : Option Nat
  message_id : Option String
deriving DecidableEq

/-- The `WHERE` clause of the batch-selection query (`notifications.py`
lines 128-130): `status IN ('pending', 'failed') AND attempts <
MAX_RETRY_ATTEMPTS`. -/
def selectable (e : OutboxEntry) : Bool :=
  (decide (e.status = .pending) || decide (e.status = .failed))
    && e.attempts < MAX_RETRY_ATTEMPTS

/-- Stable insertion into a list sorted by `created_at` ascending. -/
def insertByCreated (e : OutboxEntry) : List OutboxEntry → List OutboxEntry
  | [] => [e]
  | x :: xs => if e.created_at ≤ x.created_at then e :: x :: xs else x :: insertByCreated e xs

/-- Embeds `ORDER BY created_at ASC` as a stable insertion sort. -/
def sortByCreated : List OutboxEntry → List OutboxEntry
  | [] => []
  | x :: xs => insertByCreated x (sortByCreated xs)

/-- Embeds the batch-selection query (`notifications.py` lines 124-138):
rows in `{pending, failed}` with `attempts < MAX_RETRY_ATTEMPTS`, oldest
first, at most `limit` of them. -/
def selectBatch (limit : Nat) (entries : List OutboxEntry) : List OutboxEntry :=
  (sortByCreated (entries.filter selectable)).take limit

/-- Embeds the first `UPDATE` of the per-row loop (`notifications.py`
lines 149-158): mark the row `processing` with `attempts = row.attempts
+ 1` before any delivery work. -/
def markProcessing (e : OutboxEntry) : OutboxEntry :=
  { e with status := .processing, attempts := e.attempts + 1 }

/-- Embeds Python `str(e)[:500]` (`notifications.py` line 228). -/
def truncateError (s : String) : String :=
  ⟨s.data.take 500⟩

/-- Embeds the recipient check (`notifications.py` lines 161-172): the
`workspaces` lookup yields `none` when no row matches, or `some
deleted_at`; the recipient is usable iff a row exists with `deleted_at
IS NULL`. -/
def recipientActive (lookup : String → Option (Option Nat)) (workspace_id : String) : Bool :=
  match lookup workspace_id with
  | some none => true
  | _ => false

/-- The outcome of the `try` body for one row (`notifications.py` lines
160-204): a missing or deleted recipient raises `RuntimeError`
("Recipient workspace not found or deleted"); otherwise the external
`deliver_message` collaborator (oracle `deliver`) either returns a
message id or raises with some error string. -/
def deliveryResult (lookup : String → Option (Option Nat))
    (deliver : OutboxEntry → Except String String) (e : OutboxEntry) :
    Except String String :=
  if recipientActive lookup e.recipient_workspace_id then deliver e
  else .error "Recipient workspace not found or deleted"

/-- Embeds the success / failure bookkeeping for one row
(`notifications.py` lines 206-239): on success mark `completed`, set
`processed_at` and `message_id`, clear `last_error`; on any raised
error mark `failed` and store the error truncated to 500 characters. -/
def settleEntry (lookup : String → Option (Option Nat))
    (deliver : OutboxEntry → Except String String) (now : Nat)
    (e : OutboxEntry) : OutboxEntry :=
  match deliveryResult lookup deliver e with
  | .ok msgId =>
      { e with status := .completed, processed_at := some now,
               message_id := some msgId, last_error := none }
  | .error err =>
      { e with status := .failed, last_error := some (truncateError err) }

/-- The full per-row processing of `process_notification_outbox`: mark
`processing` with incremented attempts first, then attempt delivery and
settle. -/
def processEntry (lookup : String → Option (Option Nat))
    (deliver : OutboxEntry → Except String String) (now : Nat)
    (e : OutboxEntry) : OutboxEntry :=
  settleEntry lookup deliver now (markProcessing e)

/-- Embeds `process_notification_outbox` (`notifications.py` lines
97-241) over the whole table: the selected rows are processed in place
(rows are keyed by `id`), unselected rows are untouched, and the
`(sent_count, failed_count)` pair is returned alongside the updated
table. -/
def process_notification_outbox (lookup : String → Option (Option Nat))
    (deliver : OutboxEntry → Except String String) (now : Nat)
    (limit : Nat) (entries : List OutboxEntry) :
    List OutboxEntry × Nat × Nat :=
  let sel := selectBatch limit entries
  let table := entries.map (fun e =>
    if sel.any (fun s => s.id == e.id) then processEntry lookup deliver now e else e)
  let processed := sel.map (processEntry lookup deliver now)
  (table,
   processed.countP (fun e => decide (e.status = .completed)),
   processed.countP (fun e => decide (e.status = .failed)))

theorem mem_insertByCreated {x e : OutboxEntry} {l : List OutboxEntry} :
    x ∈ insertByCreated e l ↔ x = e ∨ x ∈ l := by
  induction l with
  | nil => simp [insertByCreated]
  | cons a as ih =>
      by_cases hle : e.created_at ≤ a.created_at
      · simp [insertByCreated, hle]
      · simp [insertByCreated, hle, ih]
        tauto

theorem mem_sortByCreated {x : OutboxEntry} {l : List OutboxEntry} :
    x ∈ sortByCreated l ↔ x ∈ l := by
  induction l with
  | nil => simp [sortByCreated]
  | cons a as ih => simp [sortByCreated, mem_insertByCreated, ih]

/-- Every batch-selected row satisfies the selection predicate. -/
theorem selectable_of_mem_selectBatch {e : OutboxEntry} {limit : Nat}
    {entries : List OutboxEntry} (h : e ∈ selectBatch limit entries) :
    selectable e = true := by
  have h' := List.mem_of_mem_take h
  rw [mem_sortByCreated] at h'
  exact (List.mem_filter.mp h').2

theorem processEntry_attempts (lookup : String → Option (Option Nat))
    (deliver : OutboxEntry → Except String String) (now : Nat) (e : OutboxEntry) :
    (processEntry lookup deliver now e).attempts = e.attempts + 1 := by
  unfold processEntry settleEntry
  cases deliveryResult lookup deliver (markProcessing e) <;> simp [markProcessing]

theorem processEntry_status (lookup : String → Option (Option Nat))
    (deliver : OutboxEntry → Except String String) (now : Nat) (e : OutboxEntry) :
    (processEntry lookup deliver now e).status = .completed ∨
      (processEntry lookup deliver now e).status = .failed := by
  unfold processEntry settleEntry
  cases deliveryResult lookup deliver (markProcessing e) <;> simp

theorem countP_completed_add_failed (l : List OutboxEntry)
    (h : ∀ e ∈ l, e.status = .completed ∨ e.status = .failed) :
    l.countP (fun e => decide (e.status = .completed)) +
      l.countP (fun e => decide (e.status = .failed)) = l.length := by
  induction l with
  | nil => simp
  | cons a as ih =>
      have ha := h a (List.mem_cons_self a as)
      have has : ∀ e ∈ as, e.status = .completed ∨ e.status = .failed :=
        fun e he => h e (List.mem_cons_of_mem a he)
      have hih := ih has
      rcases ha with ha | ha <;> simp [List.countP_cons, ha] <;> omega

/-! ### Recording notification intents (`notifications.py`, lines 28-94,
and `beads_sync.py`, lines 79-88) -/

/-- Embeds the `BeadStatusChange` dataclass (`beads_sync.py` lines 79-88). -/
structure BeadStatusChange where
  bead_id : String
  repo : Option String
  branch : Option String
  old_status : Option String
  new_status : String
  title : Option String := none
deriving DecidableEq

/-- A subscriber row as returned by `get_subscribers_for_bead`. -/
structure Subscriber where
  workspace_id : String
  aliasName : String
deriving DecidableEq

/-- The JSON payload built for one status change (`notifications.py`
lines 69-76). -/
structure NotificationPayload where
  bead_id : String
  repo : Option String
  branch : Option String
  old_status : Option String
  new_status : String
  title : Option String
deriving DecidableEq

/-- A freshly inserted outbox row (`notifications.py` lines 80-91); the
remaining columns take their database defaults. -/
structure NewOutboxRow where
  project_id : String
  event_type : String
  payload : NotificationPayload
  recipient_workspace_id : String
  recipient_alias : String
deriving DecidableEq

/-- The row inserted for one (change, subscriber) pair. -/
def mkOutboxRow (project_id : String) (c : BeadStatusChange) (sub : Subscriber) :
    NewOutboxRow :=
  { project_id := project_id,
    event_type := "bead_status_change",
    payload :=
      { bead_id := c.bead_id, repo := c.repo, branch := c.branch,
        old_status := c.old_status, new_status := c.new_status, title := c.title },
    recipient_workspace_id := sub.workspace_id,
    recipient_alias := sub.aliasName }

/-- The rows one status change contributes (`notifications.py` lines
51-92): a change with no prior status is skipped; otherwise one row per
subscriber returned by the oracle `subs` (keyed, as in the call at lines
57-63, on the bead id and repo). -/
def intentsForChange (project_id : String)
    (subs : String → Option String → List Subscriber) (c : BeadStatusChange) :
    List NewOutboxRow :=
  match c.old_status with
  | none => []
  | some _ => (subs c.bead_id c.repo).map (mkOutboxRow project_id c)

/-- Embeds `record_notification_intents` (`notifications.py` lines
28-94): the inserted rows, in order, and the returned
`entries_created` count. -/
def record_notification_intents (project_id : String)
    (subs : String → Option String → List Subscriber)
    (status_changes : List BeadStatusChange) : List NewOutboxRow × Nat :=
  let rows := status_changes.flatMap (intentsForChange project_id subs)
  (rows, rows.length)

/-! ### Mutation-to-event translator (`mutation_hooks.py`)

`create_mutation_handler` returns an `on_mutation` callback whose whole
body runs inside `try: ... except Exception: log`. The context dict is
modelled by the keys `_translate` reads; a translated event is modelled
by its dataclass tag and fields. -/

/-- The context-map keys read by `_translate` (`mutation_hooks.py` lines
48-85); `none` models an absent key, so `ctx.get(k, default)` is
`getD`. -/
structure MutationCtx where
  to_agent_id : Option String := none
  message_id : Option String := none
  from_agent_id : Option String := none
  subject : Option String := none
  agent_id : Option String := none
  session_id : Option String := none
  holder_agent_id : Option String := none
  resource_key : Option String := none
  ttl_seconds : Option Int := none
deriving DecidableEq

/-- A successfully constructed workspace-scoped event dataclass as built
by `_translate`. -/
inductive HookEvent where
  | messageDelivered (workspace_id message_id from_workspace subject : String)
  | messageAcknowledged (workspace_id message_id : String)
  | reservationAcquired (workspace_id : String) (paths : List String) (ttl_seconds : Int)
  | reservationReleased (workspace_id : String) (paths : List String)
deriving DecidableEq

/-- The `workspace_id` attribute of a translated event. -/
def HookEvent.workspace_id : HookEvent → String
  | .messageDelivered w _ _ _ => w
  | .messageAcknowledged w _ => w
  | .reservationAcquired w _ _ => w
  | .reservationReleased w _ => w

/-- Result of running `_translate(event_type, ctx)`: a constructed event,
`None` for an unrecognized event type, or a raised exception. -/
inductive TranslateOutcome where
  | event (e : HookEvent)
  | unrecognized
  | raised (msg : String)
deriving DecidableEq

/-- The `TypeError` message raised by
`ChatMessageEvent(workspace_id=...)`: `ChatEvent` (`events.py` lines
145-177) declares `session_id`, `type`, `timestamp`, `message_id`,
`from_agent`, `body`, `sender_leaving`, `hang_on`,
`extends_wait_seconds` — no `workspace_id` field — so the dataclass
`__init__` rejects the keyword argument. -/
def chatCtorError : String :=
  "__init__() got an unexpected keyword argument: workspace_id"

/-- Embeds `_translate` (`mutation_hooks.py` lines 48-85). Truthiness of
`ctx.get("resource_key")` is emptiness of the string; the
`chat.message_sent` arm always raises because the constructed
`ChatMessageEvent` is passed a `workspace_id` keyword its dataclass does
not accept. -/
def translate (event_type : String) (ctx : MutationCtx) : TranslateOutcome :=
  if event_type = "message.sent" then
    .event (.messageDelivered (ctx.to_agent_id.getD "") (ctx.message_id.getD "")
      (ctx.from_agent_id.getD "") (ctx.subject.getD ""))
  else if event_type = "message.acknowledged" then
    .event (.messageAcknowledged (ctx.agent_id.getD "") (ctx.message_id.getD ""))
  else if event_type = "chat.message_sent" then
    .raised chatCtorError
  else if event_type = "reservation.acquired" then
    .event (.reservationAcquired (ctx.holder_agent_id.getD "")
      (match ctx.resource_key with
       | some k => if k = "" then [] else [k]
       | none => [])
      (ctx.ttl_seconds.getD 0))
  else if event_type = "reservation.released" then
    .event (.reservationReleased (ctx.holder_agent_id.getD "")
      (match ctx.resource_key with
       | some k => if k = "" then [] else [k]
       | none => []))
  else
    .unrecognized

/-- What one `on_mutation` invocation does, observably. -/
inductive HookOutcome where
  | published (e : HookEvent)
  | skippedUnrecognized
  | skippedNoScope
  | swallowed
deriving DecidableEq

/-- The events a hook outcome publishes on the bus. -/
def publishedEvents : HookOutcome → List HookEvent
  | .published e => [e]
  | _ => []

/-- Embeds the `on_mutation` closure (`mutation_hooks.py` lines 33-44):
translate; return silently on `None`; log and skip when the translated
event has a falsy `workspace_id`; otherwise publish; any exception
raised inside the body is caught and logged (`swallowed`), never
re-raised. `on_mutation` is a total function into `HookOutcome`, which
has no "exception propagated" constructor: that totality is the model
of the catch-all. -/
def on_mutation (event_type : String) (ctx : MutationCtx) : HookOutcome :=
  match translate event_type ctx with
  | .raised _ => .swallowed
  | .unrecognized => .skippedUnrecognized
  | .event e => if e.workspace_id = "" then .skippedNoScope else .published e

/-! ### Concrete fixtures used by the witnesses -/

/-- A chat-session state with one peer whose heartbeat score is 10 and
whose stored deadline is 500. -/
def chatStateW : ChatState :=
  { waiting := fun w => if w = "peer1" then some 10 else none,
    deadline := fun w => if w = "peer1" then some 500 else none }

/-- A pending outbox row with no attempts yet. -/
def sampleEntry : OutboxEntry :=
  { id := 1, project_id := "p1", event_type := "bead_status_change", payload := "p",
    recipient_workspace_id := "w1", recipient_alias := "alice", status := .pending,
    attempts := 0, last_error := none, created_at := 0, processed_at := none,
    message_id := none }

/-- An empty mutation context (every key absent). -/
def emptyCtx : MutationCtx := {}

/-! ### Claim theorems -/

/-- C5 counterexample: the claim says an event type missing a dot is a
fatal construction error, and that for every `"X.Y"` the derived
category is a recognized value. In the code `Event` construction never
validates `type`; the category is derived only when the `category`
property is accessed, via `EventCategory(self.type.split(".")[0])`. For
the dotless type `"message"`, `split(".")[0]` is the whole string and
the enum lookup succeeds — no error anywhere; and for `"foo.bar"` the
derivation raises `ValueError` instead of producing a recognized value. -/
theorem category_dotless_counterexample :
    hasDot "message" = false ∧
    categoryOfType "message" = some EventCategory.message ∧
    categoryOfType "foo.bar" = none := by
  refine ⟨rfl, rfl, rfl⟩

/-- C5 (amended): for an event type `"X.Y"` with dot-free `X`, the
category derived at `category` access equals the enum lookup of `X`:
`some` of the recognized value when `X` is recognized, and a raised
`ValueError` (modelled `none`, a fatal error rather than a silent drop)
when it is not. A dotless type uses the whole type string as the
category prefix, so it errors only when that string is itself
unrecognized. Validation happens at category access, not at
construction. -/
theorem category_derivation (X Y : String) (hX : ∀ c ∈ X.data, c ≠ '.') :
    categoryOfType (X ++ "." ++ Y) = EventCategory.ofString X ∧
    categoryOfType X = EventCategory.ofString X ∧
    (EventCategory.ofString X = none → categoryOfType (X ++ "." ++ Y) = none) := by
  have h1 := pySplitHead_append X Y hX
  have h2 := pySplitHead_no_dot X hX
  refine ⟨by simp [categoryOfType, h1], by simp [categoryOfType, h2], fun h => by
    simp [categoryOfType, h1, h]⟩

/-- Witness for `category_derivation` at `X = "message"`, `Y =
"delivered"`. -/
theorem category_derivation_wit :
    categoryOfType ("message" ++ "." ++ "delivered") = EventCategory.ofString "message" ∧
    categoryOfType "message" = EventCategory.ofString "message" := by
  have h := category_derivation "message" "delivered" (by decide)
  exact ⟨h.1, h.2.1⟩

/-- C6: with category filter `{"message"}`, every emitted `data:` frame
comes from a well-formed bus message whose derived category is
`"message"`; and the concrete publish sequence `bead.status_changed`
then `message.delivered` yields exactly one frame, for the message
event. -/
theorem message_filter_correctness (msgs : List BusMessage) (r1 r2 : String) :
    (∀ m ∈ msgs, ∀ fr, frameForMessage (some ["message"]) m = some fr →
        ∃ ty raw, m = .wellFormed ty raw ∧ pySplitHead ty = "message" ∧
          fr = "data: " ++ raw ++ "\n\n") ∧
    dataFrames (some ["message"])
        [.wellFormed "bead.status_changed" r1, .wellFormed "message.delivered" r2] =
      ["data: " ++ r2 ++ "\n\n"] := by
  constructor
  · intro m _hm fr hfr
    cases m with
    | malformed raw => simp [frameForMessage] at hfr
    | wellFormed ty raw =>
        simp [frameForMessage] at hfr
        exact ⟨ty, raw, rfl, hfr.1, hfr.2.symm⟩
  · rfl

/-- Witness for `message_filter_correctness`: the frame emitted for a
concrete `message.delivered` bus message passes the filter because its
derived category is `"message"`. -/
theorem message_filter_correctness_wit :
    pySplitHead "message.delivered" = "message" := by
  obtain ⟨ty, raw, heq, hcat, -⟩ := (message_filter_correctness
    [.wellFormed "message.delivered" "payload"] "payload" "payload").1
    (.wellFormed "message.delivered" "payload") (by simp)
    ("data: " ++ "payload" ++ "\n\n") rfl
  injection heq with hty hraw
  rw [hty]
  exact hcat

/-- C7: a stream requested for zero workspace scopes terminates on its
own: it emits at most `(5 * 60) / keepalive_seconds` frames (exactly
that many when no disconnect signal ever fires), all of them keepalive
comments, so the emitted cadence fits inside the 5-minute maximum
duration; at the 30-second default this is exactly 10 keepalives. -/
theorem empty_stream_bounded (disc : Nat → Bool) (keepalive_seconds : Nat) :
    (emptyWorkspaceStream disc keepalive_seconds).length ≤ (5 * 60) / keepalive_seconds ∧
    (emptyWorkspaceStream (fun _ => false) keepalive_seconds).length =
      (5 * 60) / keepalive_seconds ∧
    ((5 * 60) / keepalive_seconds) * keepalive_seconds ≤ 5 * 60 ∧
    (∀ f ∈ emptyWorkspaceStream disc keepalive_seconds, f = keepaliveFrame) ∧
    (emptyWorkspaceStream (fun _ => false) 30).length = 10 := by
  refine ⟨?_, ?_, ?_, ?_, ?_⟩
  · have h := emptyStreamLoop_length_le disc ((5 * 60) / keepalive_seconds)
      ((5 * 60) / keepalive_seconds) 0 (Nat.sub_le _ _)
    simpa [emptyWorkspaceStream] using h
  · have h := emptyStreamLoop_length_no_disc ((5 * 60) / keepalive_seconds)
      ((5 * 60) / keepalive_seconds) 0 (Nat.sub_le _ _)
    simpa [emptyWorkspaceStream] using h
  · exact Nat.div_mul_le_self _ _
  · intro f hf
    exact emptyStreamLoop_all_keepalive disc _ _ 0 (Nat.sub_le _ _) f hf
  · have h := emptyStreamLoop_length_no_disc 10 10 0 (Nat.sub_le _ _)
    simpa [emptyWorkspaceStream, show (5 * 60) / 30 = 10 from rfl] using h

/-- Witness for `empty_stream_bounded`: the keepalive frame is a member
of the concrete 30-second no-disconnect stream, and the membership
conjunct applies to it. -/
theorem empty_stream_bounded_wit :
    keepaliveFrame ∈ emptyWorkspaceStream (fun _ => false) 30 ∧
    keepaliveFrame = keepaliveFrame := by
  have hmem : keepaliveFrame ∈ emptyWorkspaceStream (fun _ => false) 30 := by
    rw [emptyWorkspaceStream, emptyStreamLoop]
    simp
  exact ⟨hmem, (empty_stream_bounded (fun _ => false) 30).2.2.2.1 keepaliveFrame hmem⟩

/-- C3: `is_workspace_waiting` answers true iff a heartbeat entry exists
whose age `now - score` is at most `max_age_seconds`; a stale entry is
removed together with the peer's deadline entry and answered with a
plain `false`; a missing entry is a plain `false` with no state
change. -/
theorem waiting_check_correct (now max_age : Int) (st : ChatState) (w : String) :
    ((is_workspace_waiting now st w max_age).1 = true ↔
      ∃ s, st.waiting w = some s ∧ now - s ≤ max_age) ∧
    (∀ s, st.waiting w = some s → s < now - max_age →
      is_workspace_waiting now st w max_age =
        (false,
          { waiting := fun x => if x = w then none else st.waiting x,
            deadline := fun x => if x = w then none else st.deadline x })) ∧
    (st.waiting w = none → is_workspace_waiting now st w max_age = (false, st)) := by
  refine ⟨?_, ?_, ?_⟩
  · cases hw : st.waiting w with
    | none => simp [is_workspace_waiting, hw]
    | some s =>
        by_cases hs : s < now - max_age <;>
          simp [is_workspace_waiting, hw, hs] <;> omega
  · intro s hw hs
    simp [is_workspace_waiting, hw, hs]
  · intro hw
    simp [is_workspace_waiting, hw]

/-- Witness for `waiting_check_correct`: in `chatStateW` (heartbeat score
10), at `now = 200` with `max_age = 90` the peer is stale, so the check
answers false after removing both the waiting and the deadline entry;
at `now = 100` the heartbeat age is exactly 90 and the peer still
counts as waiting. -/
theorem waiting_check_correct_wit :
    (is_workspace_waiting 200 chatStateW "peer1" 90).1 = false ∧
    (is_workspace_waiting 200 chatStateW "peer1" 90).2.waiting "peer1" = none ∧
    (is_workspace_waiting 200 chatStateW "peer1" 90).2.deadline "peer1" = none ∧
    (is_workspace_waiting 100 chatStateW "peer1" 90).1 = true := by
  have hst := (waiting_check_correct 200 90 chatStateW "peer1").2.1 10
    (by simp [chatStateW]) (by norm_num)
  refine ⟨?_, ?_, ?_, ?_⟩
  · rw [hst]
  · rw [hst]
    simp
  · rw [hst]
    simp
  · exact ((waiting_check_correct 100 90 chatStateW "peer1").1).mpr
      ⟨10, by simp [chatStateW], by norm_num⟩

/-- C4: deadline extension adds to the stored deadline value, never to
wall-clock now (no clock appears in the operation at all), so two
successive 30-second extensions of a stored deadline `T` leave `T + 60`
stored; extending a peer with no stored deadline returns nothing and
creates no entry. -/
theorem deadline_extension_composes (st : ChatState) (w : String) :
    (∀ T extra, 0 < extra → st.deadline w = some T →
      extend_workspace_deadline st w extra =
        (some (T + extra),
         { st with deadline := fun x =>
             if x = w then some (T + extra) else st.deadline x })) ∧
    (∀ T, st.deadline w = some T →
      get_workspace_deadline
        (extend_workspace_deadline ((extend_workspace_deadline st w 30).2) w 30).2 w =
        some (T + 60)) ∧
    (∀ extra, st.deadline w = none → extend_workspace_deadline st w extra = (none, st)) := by
  refine ⟨?_, ?_, ?_⟩
  · intro T extra hpos hT
    simp [extend_workspace_deadline, hT, show ¬ extra ≤ 0 by omega]
  · intro T hT
    simp only [extend_workspace_deadline, get_workspace_deadline,
      show ¬ (30 : Int) ≤ 0 by norm_num, if_neg, not_false_iff, hT]
    simp
    omega
  · intro extra hn
    by_cases hpos : extra ≤ 0 <;> simp [extend_workspace_deadline, hpos, hn]

/-- Witness for `deadline_extension_composes`: in `chatStateW` the stored
deadline 500 becomes 560 after two 30-second extensions, and extending
the absent peer `"ghost"` is a no-op. -/
theorem deadline_extension_composes_wit :
    get_workspace_deadline
      (extend_workspace_deadline ((extend_workspace_deadline chatStateW "peer1" 30).2)
        "peer1" 30).2 "peer1" = some 560 ∧
    extend_workspace_deadline chatStateW "ghost" 30 = (none, chatStateW) := by
  constructor
  · have h := (deadline_extension_composes chatStateW "peer1").2.1 500 (by simp [chatStateW])
    simpa using h
  · exact (deadline_extension_composes chatStateW "ghost").2.2 30 (by simp [chatStateW])

theorem processEntry_fail_all (lookup : String → Option (Option Nat)) (msg : String)
    (now : Nat) (e : OutboxEntry) :
    (processEntry lookup (fun _ => .error msg) now e).attempts = e.attempts + 1 ∧
    (processEntry lookup (fun _ => .error msg) now e).status = .failed := by
  unfold processEntry settleEntry deliveryResult
  by_cases h : recipientActive lookup e.recipient_workspace_id <;>
    simp [h, markProcessing]

/-- C1: across a `process_notification_outbox` run every row's `attempts`
is non-decreasing; the batch selection only ever picks rows whose status
is `pending` or `failed` with `attempts < 3`; a row with 3 or more
attempts is excluded from every batch selection; and a row that starts
at 0 attempts and fails delivery three times in a row ends with
`attempts = 3` and `status = failed`, hence permanently unselected. -/
theorem outbox_retry_cap (lookup : String → Option (Option Nat))
    (deliver : OutboxEntry → Except String String) (now limit : Nat)
    (entries : List OutboxEntry) :
    List.Forall₂ (fun e e' => e.attempts ≤ e'.attempts) entries
        (process_notification_outbox lookup deliver now limit entries).1 ∧
    (∀ e ∈ selectBatch limit entries,
        (e.status = .pending ∨ e.status = .failed) ∧ e.attempts < MAX_RETRY_ATTEMPTS) ∧
    (∀ e : OutboxEntry, MAX_RETRY_ATTEMPTS ≤ e.attempts →
        ∀ limit' : Nat, ∀ entries' : List OutboxEntry, e ∉ selectBatch limit' entries') ∧
    (∀ msg : String, ∀ e : OutboxEntry, e.attempts = 0 →
        (processEntry lookup (fun _ => .error msg) now
          (processEntry lookup (fun _ => .error msg) now
            (processEntry lookup (fun _ => .error msg) now e))).attempts = 3 ∧
        (processEntry lookup (fun _ => .error msg) now
          (processEntry lookup (fun _ => .error msg) now
            (processEntry lookup (fun _ => .error msg) now e))).status = .failed) := by
  refine ⟨?_, ?_, ?_, ?_⟩
  · simp only [process_notification_outbox]
    rw [List.forall₂_map_right_iff]
    rw [List.forall₂_same]
    intro x _hx
    by_cases hsel : (selectBatch limit entries).any (fun s => s.id == x.id)
    · simp only [hsel, if_pos]
      rw [processEntry_attempts]
      omega
    · simp [hsel]
  · intro e hmem
    have hsel := selectable_of_mem_selectBatch hmem
    simp [selectable, MAX_RETRY_ATTEMPTS] at hsel
    refine ⟨hsel.1, ?_⟩
    simp only [MAX_RETRY_ATTEMPTS]
    omega
  · intro e hge limit' entries' hmem
    have hsel := selectable_of_mem_selectBatch hmem
    simp only [MAX_RETRY_ATTEMPTS] at hge
    simp [selectable, MAX_RETRY_ATTEMPTS] at hsel
    omega
  · intro msg e h0
    have h1 := processEntry_fail_all lookup msg now e
    have h2 := processEntry_fail_all lookup msg now
      (processEntry lookup (fun _ => .error msg) now e)
    have h3 := processEntry_fail_all lookup msg now
      (processEntry lookup (fun _ => .error msg) now
        (processEntry lookup (fun _ => .error msg) now e))
    refine ⟨?_, h3.2⟩
    rw [h3.1, h2.1, h1.1, h0]

/-- Witness for `outbox_retry_cap`: the concrete pending row
`sampleEntry` is batch-selectable (status pending, 0 attempts), and
after three failing deliveries it carries `attempts = 3` and `status =
failed`. -/
theorem outbox_retry_cap_wit :
    ((sampleEntry.status = OutboxStatus.pending ∨ sampleEntry.status = OutboxStatus.failed) ∧
      sampleEntry.attempts < MAX_RETRY_ATTEMPTS) ∧
    (processEntry (fun _ => some none) (fun _ => .error "boom") 5
      (processEntry (fun _ => some none) (fun _ => .error "boom") 5
        (processEntry (fun _ => some none) (fun _ => .error "boom") 5
          sampleEntry))).attempts = 3 ∧
    (processEntry (fun _ => some none) (fun _ => .error "boom") 5
      (processEntry (fun _ => some none) (fun _ => .error "boom") 5
        (processEntry (fun _ => some none) (fun _ => .error "boom") 5
          sampleEntry))).status = .failed := by
  have h := outbox_retry_cap (fun _ => some none) (fun _ => .error "boom") 5 10 [sampleEntry]
  refine ⟨h.2.1 sampleEntry (by decide), ?_, ?_⟩
  · exact (h.2.2.2 "boom" sampleEntry rfl).1
  · exact (h.2.2.2 "boom" sampleEntry rfl).2

/-- C2: each selected row is first marked `processing` with `attempts`
incremented before any delivery work; on successful delivery the row
becomes `completed` with the resulting message id recorded and
`last_error` cleared; on any failure (a missing or deleted recipient
workspace raising like any other error) the row becomes `failed` with
an error string truncated to at most 500 characters; and no per-row
failure escapes the batch: every selected row is settled, with
`sent_count + failed_count` equal to the number of selected rows. -/
theorem outbox_bookkeeping (lookup : String → Option (Option Nat))
    (deliver : OutboxEntry → Except String String) (now : Nat) (e : OutboxEntry) :
    (markProcessing e).status = .processing ∧
    (markProcessing e).attempts = e.attempts + 1 ∧
    processEntry lookup deliver now e = settleEntry lookup deliver now (markProcessing e) ∧
    (∀ m, deliveryResult lookup deliver (markProcessing e) = .ok m →
        processEntry lookup deliver now e =
          { markProcessing e with
              status := .completed
              processed_at := some now
              message_id := some m
              last_error := none }) ∧
    (∀ err, deliveryResult lookup deliver (markProcessing e) = .error err →
        processEntry lookup deliver now e =
          { markProcessing e with
              status := .failed
              last_error := some (truncateError err) } ∧
        (truncateError err).length ≤ 500) ∧
    (recipientActive lookup e.recipient_workspace_id = false →
        deliveryResult lookup deliver (markProcessing e) =
          .error "Recipient workspace not found or deleted") ∧
    (∀ limit : Nat, ∀ entries : List OutboxEntry,
        (process_notification_outbox lookup deliver now limit entries).2.1 +
          (process_notification_outbox lookup deliver now limit entries).2.2 =
        (selectBatch limit entries).length) := by
  refine ⟨rfl, rfl, rfl, ?_, ?_, ?_, ?_⟩
  · intro m hok
    simp [processEntry, settleEntry, hok]
  · intro err herr
    refine ⟨by simp [processEntry, settleEntry, herr], ?_⟩
    exact List.length_take_le 500 err.data
  · intro hinactive
    simp [deliveryResult, markProcessing, hinactive]
  · intro limit entries
    simp only [process_notification_outbox]
    rw [countP_completed_add_failed, List.length_map]
    intro x hx
    obtain ⟨y, _hy, rfl⟩ := List.mem_map.mp hx
    exact processEntry_status lookup deliver now y

/-- Witness for `outbox_bookkeeping`: with an active recipient and a
delivery oracle answering message id `"m1"`, `sampleEntry` completes
with the message id recorded and no error; with the recipient deleted,
the delivery raises the recipient error. -/
theorem outbox_bookkeeping_wit :
    (processEntry (fun _ => some none) (fun _ => .ok "m1") 7 sampleEntry).status =
      OutboxStatus.completed ∧
    (processEntry (fun _ => some none) (fun _ => .ok "m1") 7 sampleEntry).message_id =
      some "m1" ∧
    (processEntry (fun _ => some none) (fun _ => .ok "m1") 7 sampleEntry).last_error =
      none ∧
    (processEntry (fun _ => some none) (fun _ => .ok "m1") 7 sampleEntry).attempts = 1 ∧
    deliveryResult (fun _ => some (some 3)) (fun _ => .ok "m1")
        (markProcessing sampleEntry) =
      .error "Recipient workspace not found or deleted" := by
  have hok := (outbox_bookkeeping (fun _ => some none) (fun _ => .ok "m1") 7
    sampleEntry).2.2.2.1 "m1" rfl
  have hdel := (outbox_bookkeeping (fun _ => some (some 3)) (fun _ => .ok "m1") 7
    sampleEntry).2.2.2.2.2.1 rfl
  rw [hok]
  exact ⟨rfl, rfl, rfl, rfl, hdel⟩

/-- C8: a status change with no prior status contributes zero outbox
rows no matter what the subscriber oracle answers; a change with a
prior status contributes exactly one row per subscriber; and the count
`record_notification_intents` returns is the number of rows it
inserted. -/
theorem record_intents_spec (project_id : String)
    (subs : String → Option String → List Subscriber)
    (status_changes : List BeadStatusChange) :
    (∀ c : BeadStatusChange, c.old_status = none →
        intentsForChange project_id subs c = []) ∧
    (∀ c : BeadStatusChange, ∀ s : String, c.old_status = some s →
        intentsForChange project_id subs c =
          (subs c.bead_id c.repo).map (mkOutboxRow project_id c) ∧
        (intentsForChange project_id subs c).length =
          (subs c.bead_id c.repo).length) ∧
    ((∀ c ∈ status_changes, c.old_status = none) →
        (record_notification_intents project_id subs status_changes).1 = []) ∧
    (record_notification_intents project_id subs status_changes).2 =
      (record_notification_intents project_id subs status_changes).1.length := by
  refine ⟨?_, ?_, ?_, rfl⟩
  · intro c hc
    simp [intentsForChange, hc]
  · intro c s hc
    simp [intentsForChange, hc]
  · intro hall
    simp only [record_notification_intents]
    induction status_changes with
    | nil => rfl
    | cons a as ih =>
        have ha := hall a (List.mem_cons_self a as)
        have has : ∀ c ∈ as, c.old_status = none :=
          fun c hc => hall c (List.mem_cons_of_mem a hc)
        simp [intentsForChange, ha, ih has]

/-- Witness for `record_intents_spec`: a brand-new bead (no old status)
yields no rows even with a subscriber present, while a real transition
yields exactly one row for that subscriber. -/
theorem record_intents_spec_wit :
    intentsForChange "p1" (fun _ _ => [{ workspace_id := "w2", aliasName := "bob" }])
      { bead_id := "b1", repo := none, branch := none,
        old_status := none, new_status := "open" } = [] ∧
    (intentsForChange "p1" (fun _ _ => [{ workspace_id := "w2", aliasName := "bob" }])
      { bead_id := "b1", repo := none, branch := none,
        old_status := some "open", new_status := "closed" }).length = 1 := by
  have h := record_intents_spec "p1"
    (fun _ _ => [{ workspace_id := "w2", aliasName := "bob" }]) []
  refine ⟨h.1 _ rfl, ?_⟩
  have h2 := (h.2.1
    { bead_id := "b1", repo := none, branch := none,
      old_status := some "open", new_status := "closed" } "open" rfl).2
  simpa using h2

/-- C9: the `on_mutation` hook is a total function into `HookOutcome` —
an exception raised inside its body (such as the translation's
`TypeError`) becomes the logged `swallowed` outcome, never a propagated
exception; an unrecognized event type translates to `None` and nothing
is published; a translated event whose `workspace_id` is empty is
logged and skipped; everything actually published carries a non-empty
`workspace_id`. -/
theorem mutation_hook_never_throws (et : String) (ctx : MutationCtx) :
    (∀ msg, translate et ctx = .raised msg →
        on_mutation et ctx = .swallowed ∧ publishedEvents (on_mutation et ctx) = []) ∧
    (translate et ctx = .unrecognized →
        on_mutation et ctx = .skippedUnrecognized ∧
        publishedEvents (on_mutation et ctx) = []) ∧
    (et ∉ (["message.sent", "message.acknowledged", "chat.message_sent",
        "reservation.acquired", "reservation.released"] : List String) →
        translate et ctx = .unrecognized) ∧
    (∀ e, translate et ctx = .event e → e.workspace_id = "" →
        on_mutation et ctx = .skippedNoScope ∧
        publishedEvents (on_mutation et ctx) = []) ∧
    (∀ e, on_mutation et ctx = .published e → e.workspace_id ≠ "") := by
  refine ⟨?_, ?_, ?_, ?_, ?_⟩
  · intro msg h
    simp [on_mutation, h, publishedEvents]
  · intro h
    simp [on_mutation, h, publishedEvents]
  · intro hnot
    simp only [List.mem_cons, List.not_mem_nil, or_false, not_or] at hnot
    obtain ⟨h1, h2, h3, h4, h5⟩ := hnot
    simp [translate, h1, h2, h3, h4, h5]
  · intro e htr hempty
    simp [on_mutation, htr, hempty, publishedEvents]
  · intro e hpub
    unfold on_mutation at hpub
    cases htr : translate et ctx with
    | raised msg => rw [htr] at hpub; simp at hpub
    | unrecognized => rw [htr] at hpub; simp at hpub
    | event e' =>
        rw [htr] at hpub
        by_cases he : e'.workspace_id = ""
        · simp [he] at hpub
        · simp [he] at hpub
          subst hpub
          exact he

/-- Witness for `mutation_hook_never_throws`: the chat arm's raised
`TypeError` is swallowed; a `message.sent` mutation with no
`to_agent_id` in context is skipped for lack of a scope id; the
unknown tag `"bead.synced"` translates to nothing. -/
theorem mutation_hook_never_throws_wit :
    on_mutation "chat.message_sent" emptyCtx = .swallowed ∧
    on_mutation "message.sent" emptyCtx = .skippedNoScope ∧
    translate "bead.synced" emptyCtx = .unrecognized := by
  refine ⟨?_, ?_, ?_⟩
  · exact ((mutation_hook_never_throws "chat.message_sent" emptyCtx).1
      chatCtorError rfl).1
  · exact ((mutation_hook_never_throws "message.sent" emptyCtx).2.2.2.1
      (.messageDelivered "" "" "" "") rfl rfl).1
  · exact (mutation_hook_never_throws "bead.synced" emptyCtx).2.2.1 (by decide)

/-- C10: for every context, `on_mutation "chat.message_sent"` returns
normally with nothing published: `_translate` builds
`ChatMessageEvent(workspace_id=...)`, a keyword the `ChatEvent`
dataclass does not accept, so construction raises `TypeError` and the
hook's catch-all swallows it. -/
theorem chat_hook_swallows (ctx : MutationCtx) :
    translate "chat.message_sent" ctx = .raised chatCtorError ∧
    on_mutation "chat.message_sent" ctx = .swallowed ∧
    publishedEvents (on_mutation "chat.message_sent" ctx) = [] := by
  refine ⟨rfl, rfl, rfl⟩

end BeadHub
